import Mathlib

/-!
Verification of the TransUNet inference plugin (`TransUNet_process.py`).

The development shallowly embeds the pipeline of `TransUNetProcess.run`:
the configuration/model cache (lines 111-128), the inference pipeline
(lines 130-158), the color-map builder (lines 161-165), the legend
renderer (`draw_legend`, lines 179-199) and the `Normalize` transform
(lines 201-210).  Machine floats are modelled exactly: rationals where the
code's arithmetic is evaluated, reals where `softmax` (which needs `exp`)
is involved.  Tensor shapes are lists of dimension sizes; stateful code is
explicit state passing on `PState`.
-/

/-- The semantic fields consumed from the YAML configuration
(`self.cfg`): `img_size`, `n_classes`, `class_names`, and whether
`pretrained_path` is non-None. -/
structure Cfg where
  img_size : Nat
  n_classes : Nat
  class_names : List String
  pretrained : Bool
deriving DecidableEq

/-- A built model handle (`self.model`).  `cfgUsed` is the configuration
the `ViT_seg` instance was constructed from, `weightsLoaded` records a
successful `load_state_dict`, `evalSet` records that `.eval()` ran, and
`buildId` is a fresh identity tag: each construction of a new instance
uses the next unused id, so two handles are the same Python object
exactly when their ids agree. -/
structure ModelH where
  cfgUsed : Cfg
  weightsLoaded : Bool
  evalSet : Bool
  buildId : Nat
deriving DecidableEq

/-- The mutable attributes of `TransUNetProcess` that `run` reads and
writes, plus the persistent `param.update` flag and the fresh-id
counter for model construction. -/
structure PState where
  cfg : Option Cfg
  model : Option ModelH
  colors : Option (List (List Nat))
  update : Bool
  nextId : Nat
deriving DecidableEq

/-- Per-run inputs: the parsed content of `param.configFile` (`none` when
the path is the empty string), whether `param.modelFile` names an existing
file, whether `torch.load`+`load_state_dict` of that file succeeds on the
freshly built network, the input image's (height, width) when an image is
present, and the output stream of the pseudo-random generator right after
`random.seed(10)` (draw index to drawn value). -/
structure RunInput where
  configFile : Option Cfg
  modelFileExists : Bool
  weightsCompatible : Bool
  srcImage : Option (Nat × Nat)
  rand : Nat → Nat

/-- The exception raised by `load_state_dict` on structurally
incompatible weights. -/
inductive RunErr where
  | weightLoad
deriving DecidableEq

/-- Lines 111-115: reload the configuration when none is cached or an
update is requested, provided `param.configFile` is a non-empty path. -/
def loadCfgStep (configFile : Option Cfg) (s : PState) : PState :=
  if (s.cfg = none ∨ s.update = true) ∧ configFile ≠ none then
    { s with cfg := configFile }
  else s

/-- Lines 117-128: build the model when none is cached or an update is
requested, provided a configuration is loaded.  The new instance is
assigned to `self.model` first; only then are the weights loaded (which
may raise) and `.eval()` set.  On a weight-load failure the run aborts
with the state mutated so far. -/
def buildStep (inp : RunInput) (s : PState) : PState × Option RunErr :=
  match s.cfg with
  | none => (s, none)
  | some c =>
    if s.model = none ∨ s.update = true then
      let s1 := { s with model := some ⟨c, false, false, s.nextId⟩,
                         nextId := s.nextId + 1 }
      if inp.modelFileExists then
        if inp.weightsCompatible then
          ({ s1 with model := some ⟨c, true, true, s.nextId⟩ }, none)
        else (s1, some RunErr.weightLoad)
      else ({ s1 with model := some ⟨c, false, true, s.nextId⟩ }, none)
    else (s, none)

/-- `len(self.classes)` — `self.classes` is set to `cfg.class_names`
whenever the configuration loads, so it always mirrors the cached
configuration. -/
def classCount (s : PState) : Nat :=
  match s.cfg with
  | some c => c.class_names.length
  | none => 0

/-- Lines 161-165: `self.colors` starts as `[[0,0,0]]` and appends, for
each of the remaining `n-1` classes in index order, three sequential
draws of `random.randint(0, 255)` followed by the constant alpha 255.
`g` is the seeded generator's output stream starting at draw index
`start`. -/
def buildColorsAux (g : Nat → Nat) : Nat → Nat → List (List Nat)
  | 0, _ => []
  | k + 1, start =>
      [g start, g (start + 1), g (start + 2), 255] ::
        buildColorsAux g k (start + 3)

/-- The full color map for `n` classes from generator stream `g`. -/
def buildColors (g : Nat → Nat) (n : Nat) : List (List Nat) :=
  [0, 0, 0] :: buildColorsAux g (n - 1) 0

/-- Lines 130-172, the branch guarded by `self.model is not None and
srcImage is not None`: (re)build the color map when none is cached or an
update is requested, then clear `param.update`. -/
def inferStep (inp : RunInput) (s : PState) : PState :=
  if s.model ≠ none ∧ inp.srcImage ≠ none then
    let s2 :=
      if s.colors = none ∨ s.update = true then
        { s with colors := some (buildColors inp.rand (classCount s)) }
      else s
    { s2 with update := false }
  else s

/-- One call of `TransUNetProcess.run`: config load, model build (which
may raise), then the inference/colors branch.  A raised exception leaves
the object in its mutated-so-far state. -/
def run (inp : RunInput) (s : PState) : PState × Option RunErr :=
  match buildStep inp (loadCfgStep inp.configFile s) with
  | (s2, some e) => (s2, some e)
  | (s2, none) => (inferStep inp s2, none)

/-- The `ensure(config, weight_path, force_rebuild)` operation of the
spec: exactly lines 111-128 of `run` (configuration load followed by the
cached model build), with `param.update` playing the role of
`force_rebuild`. -/
def ensure (inp : RunInput) (s : PState) : PState × Option RunErr :=
  buildStep inp (loadCfgStep inp.configFile s)

/-! ### Normalization (lines 142-145 and 201-210)

A channel is the list of its pixel values; an image is the list of its
channels; the tensor passed to `Normalize` is the batched list of images
(here always `[img]`, shape (1, 3, H, W)). -/

abbrev Chan := List ℚ

abbrev ChImg := List Chan

/-- `t.sub_(m).div_(s)` on a whole (C, H, W) slice: every entry of every
channel gets the same scalar mean and std (broadcasting). -/
def subDivAll (m sd : ℚ) (im : ChImg) : ChImg :=
  im.map (fun ch => ch.map (fun x => (x - m) / sd))

/-- `Normalize.__call__`: `for t, m, s in zip(image, self.mean,
self.std): t.sub_(m).div_(s)`.  Iterating a tensor runs over its FIRST
axis, so `zip` pairs the batch elements (not the channels) with the
mean/std entries and stops at the shortest of the three; elements beyond
the zip length stay untouched (in-place mutation). -/
def normalizeCall (mean std : List ℚ) (batch : List ChImg) : List ChImg :=
  ((batch.zip (mean.zip std)).map fun p => subDivAll p.2.1 p.2.2 p.1)
    ++ batch.drop (batch.zip (mean.zip std)).length

/-- Line 143: `mean = np.array([123.675, 116.280, 103.530])`. -/
def meanList : List ℚ := [123.675, 116.280, 103.530]

/-- Line 144: `std = np.array([58.395, 57.120, 57.375])`. -/
def stdList : List ℚ := [58.395, 57.120, 57.375]

/-- Line 145 as executed: `Normalize(mean, std)(srcImage)` on the batched
(1, 3, H, W) tensor holding the single resized image. -/
def runNormalize (img : ChImg) : List ChImg :=
  normalizeCall meanList stdList [img]

/-- Modelled from the spec: "subtract per-channel means ... and divide by
per-channel standard deviations ..., each channel using its own mean and
standard deviation" — the claimed per-channel transform, for comparison
with `normalizeCall`. -/
def perChannelNormalize (mean std : List ℚ) (img : ChImg) : ChImg :=
  (img.zip (mean.zip std)).map fun p =>
    p.1.map (fun x => (x - p.2.1) / p.2.2)

/-! ### Shapes of the inference pipeline (lines 131-151) -/

/-- `transforms.Resize(size=(a, b))` on a 4-D tensor replaces the last
two dimensions. -/
def resize4 (a b : Nat) : List Nat → List Nat
  | [n, c, _, _] => [n, c, a, b]
  | sh => sh

/-- `.permute(0, 3, 1, 2)` on a 4-D tensor. -/
def permute0312 : List Nat → List Nat
  | [a, b, c, d] => [a, d, b, c]
  | sh => sh

/-- The forward pass of `ViT_seg` built with `num_classes = n`: per the
model's contract, a (B, C, H, W) input yields (B, n, H, W) per-pixel
class logits. -/
def forwardShape (n : Nat) : List Nat → List Nat
  | [b, _, h, w] => [b, n, h, w]
  | sh => sh

/-- `torch.argmax(·, dim=1, keepdim=True)` on a 4-D tensor. -/
def argmaxKeep1 : List Nat → List Nat
  | [b, _, h, w] => [b, 1, h, w]
  | sh => sh

/-- `.squeeze()` with no argument: remove every dimension of size 1. -/
def squeezeAll (sh : List Nat) : List Nat :=
  sh.filter (fun d => decide (d ≠ 1))

/-- Shape of `pred` as returned by the pipeline on an (h, w, 3) source
image with `img_size = s` and `n_classes = n`: batch, permute, bicubic
downsample, forward, softmax (shape-preserving), argmax, nearest
upsample, squeeze. -/
def runOutputShape (s n h w : Nat) : List Nat :=
  squeezeAll (resize4 h w (argmaxKeep1 (forwardShape n
    (resize4 s s (permute0312 (1 :: [h, w, 3]))))))

/-! ### Values of the inference pipeline -/

/-- `torch.argmax` along an axis: the index of the first maximal entry
(0 on the empty list). -/
def argmaxIdx {α : Type} [LinearOrder α] : List α → Nat
  | [] => 0
  | x :: t => if t.all (fun y => decide (y ≤ x)) then 0 else argmaxIdx t + 1

/-- `torch.softmax(·, dim=1)` applied to one pixel's per-class logits
vector. -/
noncomputable def softmax (l : List ℝ) : List ℝ :=
  l.map (fun x => Real.exp x / (l.map Real.exp).sum)

/-- Index selection of nearest-neighbor resampling from a `src`-long axis
to a `dst`-long axis: a source index is picked for each destination
index, clamped into range. -/
def nearestIdx (dst src i : Nat) : Nat :=
  min (i * src / dst) (src - 1)

/-- The label grid on the model's s×s output: per-pixel argmax over the
class axis of the logits (softmax omitted here; its irrelevance to the
argmax is the subject of a separate theorem). -/
def labelGrid {α : Type} [LinearOrder α] (logits : Nat → Nat → List α) :
    Nat → Nat → Nat :=
  fun i j => argmaxIdx (logits i j)

/-- Nearest-neighbor upsampling of an s×s grid to h×w. -/
def upsampleNearest (s h w : Nat) (g : Nat → Nat → Nat) : Nat → Nat → Nat :=
  fun i j => g (nearestIdx h s i) (nearestIdx w s j)

/-- The value of the returned label map at output pixel (i, j), for
per-pixel logits `logits` on the s×s model grid. -/
def inferLabels {α : Type} [LinearOrder α] (s h w : Nat)
    (logits : Nat → Nat → List α) : Nat → Nat → Nat :=
  upsampleNearest s h w (labelGrid logits)

/-! ### Input handling before the forward pass (line 131) -/

/-- `h, w, c = np.shape(srcImage)`: the only processing of the input
image before the tensor plumbing — a three-way destructuring of the shape
tuple, which succeeds exactly on 3-dimensional arrays (any channel count,
values never inspected). -/
def shapeTriple : List Nat → Option (Nat × Nat × Nat)
  | [h, w, c] => some (h, w, c)
  | _ => none

/-- Whether the run proceeds past line 131 toward the forward pass. -/
def preForwardAccepts (sh : List Nat) : Bool :=
  (shapeTriple sh).isSome

/-! ### Legend geometry (`draw_legend`, lines 179-199) -/

/-- `rectangle_height = min(max_height, img_h // len(self.colors))`. -/
def rectHeight (n : Nat) : Nat := min 100 (1000 / n)

/-- Top y-coordinate of class `i`'s rectangle:
`i * rectangle_height + offset_y + interline`. -/
def rectTop (n i : Nat) : Nat := i * rectHeight n + 5 + 5

/-- Bottom y-coordinate of class `i`'s rectangle:
`(i + 1) * rectangle_height + offset_y - interline`. -/
def rectBottom (n i : Nat) : Nat := (i + 1) * rectHeight n + 5 - 5

/-- `np.full((img_h, img_w, 3), ...)`: the legend raster's shape. -/
def legendShape : List Nat := [1000, 1000, 3]

/-- The filled rectangles drawn by the loop, one per class, as
(x1, y1, x2, y2); `rectangle_width = img_w // 3`, `offset_x = 10`. -/
def legendRects (n : Nat) : List (Nat × Nat × Nat × Nat) :=
  (List.range n).map (fun i => (10, rectTop n i, 10 + 1000 / 3, rectBottom n i))

/-! ### Concrete fixtures for witnesses and counterexamples -/

/-- A concrete two-class configuration. -/
def cfgA : Cfg := ⟨224, 2, ["bg", "object"], false⟩

/-- A concrete three-class configuration, different from `cfgA`. -/
def cfgB : Cfg := ⟨256, 3, ["bg", "cat", "dog"], false⟩

/-- A handle built from `cfgA`, weights loaded, eval set, id 0. -/
def modelA : ModelH := ⟨cfgA, true, true, 0⟩

/-- A state caching `cfgA` and `modelA`, no update requested. -/
def stateA : PState := ⟨some cfgA, some modelA, none, false, 1⟩

/-- An input whose config file parses to `cfgB`, no weight file, no
image. -/
def inpB : RunInput := ⟨some cfgB, false, true, none, fun _ => 0⟩

/-- A state caching `cfgA` and `modelA` with an update requested. -/
def stateU : PState := ⟨some cfgA, some modelA, some [[0, 0, 0]], true, 1⟩

/-- An input with an existing but structurally incompatible weight file
and no config file. -/
def inpBad : RunInput := ⟨none, true, false, none, fun _ => 0⟩

/-- A state with a loaded config, no model yet, update requested. -/
def stateE : PState := ⟨some cfgA, none, none, true, 0⟩

/-- An incompatible-weights input that also carries a source image. -/
def inpBadImg : RunInput := ⟨none, true, false, some (2, 2), fun _ => 0⟩

/-- An empty initial state with an update requested. -/
def stateZ : PState := ⟨none, none, none, true, 0⟩

/-- An input with a config file (`cfgA`), no weight file, and a source
image. -/
def inpFull : RunInput := ⟨some cfgA, false, true, some (3, 4), fun _ => 0⟩

/-- An input with a config file but no source image. -/
def inpNoImg : RunInput := ⟨some cfgA, false, true, none, fun _ => 0⟩

/-! ## Helper lemmas -/

theorem argmaxIdx_lt_length {α : Type} [LinearOrder α] (l : List α)
    (h : l ≠ []) : argmaxIdx l < l.length := by
  induction l with
  | nil => exact absurd rfl h
  | cons x t ih =>
    simp only [argmaxIdx, List.length_cons]
    split
    · exact Nat.succ_pos _
    · rename_i hc
      cases t with
      | nil => simp [List.all_nil] at hc
      | cons y u =>
        have := ih (by simp)
        omega

theorem all_map_hetero {α β : Type} (f : α → β) (p : β → Bool)
    (l : List α) : (l.map f).all p = l.all (fun a => p (f a)) := by
  induction l with
  | nil => rfl
  | cons x t ih => simp [ih]

theorem argmaxIdx_map_of_mono {α β : Type} [LinearOrder α] [LinearOrder β]
    (f : α → β) (hf : ∀ a b : α, f a ≤ f b ↔ a ≤ b) (l : List α) :
    argmaxIdx (l.map f) = argmaxIdx l := by
  induction l with
  | nil => rfl
  | cons x t ih =>
    simp only [List.map_cons, argmaxIdx]
    have hcond : ((t.map f).all fun y => decide (y ≤ f x))
        = (t.all fun y => decide (y ≤ x)) := by
      rw [all_map_hetero]
      congr 1
      funext y
      simp [hf]
    rw [hcond, ih]

theorem expSum_pos (l : List ℝ) (h : l ≠ []) :
    0 < (l.map Real.exp).sum := by
  cases l with
  | nil => exact absurd rfl h
  | cons x t =>
    have h1 : 0 < Real.exp x := Real.exp_pos x
    have h2 : 0 ≤ (t.map Real.exp).sum := by
      apply List.sum_nonneg
      intro y hy
      obtain ⟨z, _, rfl⟩ := List.mem_map.mp hy
      exact (Real.exp_pos z).le
    simp only [List.map_cons, List.sum_cons]
    linarith

/-! ## Claim theorems -/

/-- Claim C5: for every valid input image and every model consistent with
the configuration (per-pixel logits vectors of length `num_classes` with
`num_classes ≥ 1`), every entry of the label map returned by the
inference pipeline is an integer in `[0, num_classes)`. -/
theorem claim_C5_label_range (s h w n : Nat) (logits : Nat → Nat → List ℝ)
    (hn : 1 ≤ n) (hlen : ∀ i j, (logits i j).length = n) (i j : Nat) :
    inferLabels s h w logits i j < n := by
  unfold inferLabels upsampleNearest labelGrid
  have hne : logits (nearestIdx h s i) (nearestIdx w s j) ≠ [] := by
    intro hcontra
    have hl := hlen (nearestIdx h s i) (nearestIdx w s j)
    rw [hcontra] at hl
    simp at hl
    omega
  have hlt := argmaxIdx_lt_length _ hne
  rw [hlen (nearestIdx h s i) (nearestIdx w s j)] at hlt
  exact hlt

/-- Witness for C5 at a concrete model grid and pixel. -/
theorem claim_C5_label_range_witness :
    inferLabels 4 2 2 (fun _ _ => [(0 : ℝ), 1]) 0 0 < 2 :=
  claim_C5_label_range 4 2 2 2 (fun _ _ => [0, 1]) (by decide)
    (fun _ _ => rfl) 0 0

/-- Claim C6: per pixel, the arg-max class index after softmax over the
class axis equals the arg-max of the raw logits: the softmax step does
not change the arg-max result. -/
theorem claim_C6_softmax_argmax (logits : Nat → Nat → List ℝ) (i j : Nat)
    (h : logits i j ≠ []) :
    argmaxIdx (softmax (logits i j)) = argmaxIdx (logits i j) := by
  have hS : 0 < ((logits i j).map Real.exp).sum := expSum_pos _ h
  unfold softmax
  refine argmaxIdx_map_of_mono _ (fun a b => ?_) _
  rw [div_le_div_iff_of_pos_right hS, Real.exp_le_exp]

/-- Witness for C6 at a concrete logits grid and pixel. -/
theorem claim_C6_softmax_argmax_witness :
    argmaxIdx (softmax ((fun _ _ => [(0 : ℝ), 1]) 0 0))
      = argmaxIdx ((fun _ _ => [(0 : ℝ), 1]) 0 0) :=
  claim_C6_softmax_argmax (fun _ _ => [0, 1]) 0 0 (by simp)

/-- Claim C1 (code bug): the claim says each channel c is normalized with
its own mean_c and std_c; the code's `Normalize` iterates the batched
(1, 3, H, W) tensor over its batch axis, so the zip pairs the single
batch element with mean_0/std_0 and EVERY channel is transformed with
mean 123.675 and std 58.395.  Evaluated at the 1-pixel image with
channels (0, 100, 0): the code's result uses the channel-0 statistics
throughout and differs from the claimed per-channel normalization. -/
theorem claim_C1_normalize_code_bug :
    (∀ img : ChImg,
      runNormalize img = [subDivAll (123.675 : ℚ) (58.395 : ℚ) img]) ∧
    runNormalize [[0], [100], [0]] =
      [[[(0 - 123.675) / 58.395], [(100 - 123.675) / 58.395],
        [(0 - 123.675) / 58.395]]] ∧
    runNormalize [[0], [100], [0]] ≠
      [perChannelNormalize meanList stdList [[0], [100], [0]]] := by
  refine ⟨fun img => rfl, by norm_num [runNormalize, normalizeCall,
    meanList, stdList, subDivAll], by norm_num [runNormalize,
    normalizeCall, meanList, stdList, subDivAll, perChannelNormalize]⟩

/-- Claim C4 (counterexample): on a 1×5 3-channel image, `squeeze()`
also removes the height-1 dimension, so the returned label map has shape
(5,), not (1, 5) as the claim requires for every H ≥ 1, W ≥ 1. -/
theorem claim_C4_shape_counterexample :
    runOutputShape 224 2 1 5 ≠ [1, 5] ∧ runOutputShape 224 2 1 5 = [5] := by
  decide

/-- Claim C4 (amended): for every 3-channel input of height H ≥ 2 and
width W ≥ 2 the returned label map has exactly shape (H, W); when H = 1
or W = 1 the final `squeeze()` also drops those singleton dimensions. -/
theorem claim_C4_shape_amended (s n h w : Nat) (hh : 2 ≤ h) (hw : 2 ≤ w) :
    runOutputShape s n h w = [h, w] := by
  have h1 : h ≠ 1 := by omega
  have h2 : w ≠ 1 := by omega
  simp [runOutputShape, permute0312, resize4, forwardShape, argmaxKeep1,
    squeezeAll, List.filter, h1, h2]

/-- Witness for the amended C4 at a concrete 512×384 image. -/
theorem claim_C4_shape_witness : runOutputShape 256 3 512 384 = [512, 384] :=
  claim_C4_shape_amended 256 3 512 384 (by decide) (by decide)

/-- Claim C8 (counterexample): a 2×2 image with 4 channels is not a
3-channel raster, yet the only pre-forward processing — the destructuring
`h, w, c = np.shape(srcImage)` — succeeds on it, so the run proceeds
toward the forward pass instead of failing. -/
theorem claim_C8_validation_counterexample :
    preForwardAccepts [2, 2, 4] = true ∧
    shapeTriple [2, 2, 4] = some (2, 2, 4) ∧ (4 : Nat) ≠ 3 := by
  decide

/-- Claim C8 (amended): the code performs no validation of channel count
or 8-bit value range; the only gate before the forward pass is the
three-way shape destructuring, which succeeds exactly on 3-dimensional
arrays (of any channel count, values never inspected). -/
theorem claim_C8_validation_amended (sh : List Nat) :
    preForwardAccepts sh = true ↔ sh.length = 3 := by
  rcases sh with _ | ⟨a, _ | ⟨b, _ | ⟨c, _ | ⟨d, t⟩⟩⟩⟩ <;>
    simp [preForwardAccepts, shapeTriple]

theorem buildColorsAux_length (g : Nat → Nat) (k start : Nat) :
    (buildColorsAux g k start).length = k := by
  induction k generalizing start with
  | zero => rfl
  | succ k ih => simp [buildColorsAux, ih]

theorem buildColorsAux_getD (g : Nat → Nat) (k start i : Nat) (h : i < k) :
    (buildColorsAux g k start).getD i []
      = [g (start + 3 * i), g (start + 3 * i + 1), g (start + 3 * i + 2),
         255] := by
  induction k generalizing start i with
  | zero => omega
  | succ k ih =>
    cases i with
    | zero => simp [buildColorsAux]
    | succ i =>
      have hrec := ih (start + 3) i (by omega)
      have e : start + 3 + 3 * i = start + 3 * (i + 1) := by ring
      simp only [buildColorsAux, List.getD_cons_succ]
      rw [hrec, e]

theorem buildColorsAux_congr (g g2 : Nat → Nat) (k start : Nat)
    (h : ∀ j, j < 3 * k → g (start + j) = g2 (start + j)) :
    buildColorsAux g k start = buildColorsAux g2 k start := by
  induction k generalizing start with
  | zero => rfl
  | succ k ih =>
    have h0 : g start = g2 start := h 0 (by omega)
    have h1 : g (start + 1) = g2 (start + 1) := h 1 (by omega)
    have h2 : g (start + 2) = g2 (start + 2) := h 2 (by omega)
    simp only [buildColorsAux, h0, h1, h2]
    refine congrArg _ (ih (start + 3) fun j hj => ?_)
    have e : start + 3 + j = start + (3 + j) := by omega
    rw [e]
    exact h (3 + j) (by omega)

theorem buildColorsAux_mem_bound (g : Nat → Nat)
    (hg : ∀ k, g k ≤ 255) (k start : Nat) :
    ∀ col ∈ buildColorsAux g k start, ∀ v ∈ col, v ≤ 255 := by
  induction k generalizing start with
  | zero => intro col hcol; simp [buildColorsAux] at hcol
  | succ k ih =>
    intro col hcol v hv
    simp only [buildColorsAux, List.mem_cons] at hcol
    rcases hcol with rfl | hcol
    · simp only [List.mem_cons, List.not_mem_nil, or_false] at hv
      rcases hv with rfl | rfl | rfl | rfl
      · exact hg start
      · exact hg (start + 1)
      · exact hg (start + 2)
      · exact le_refl 255
    · exact ih (start + 3) col hcol v hv

/-- Claim C7: the color map is a deterministic function of the seeded
generator's output stream (two builds reading the same stream agree, and
only the first 3·(n−1) draws are consumed); entry 0 is always (0,0,0);
entry i+1 is built from the three sequentially consumed draws 3i, 3i+1,
3i+2 (class-index order) plus the constant alpha 255; with draws in
[0, 255] every color component is in [0, 255]; the map has one entry per
class. -/
theorem claim_C7_colormap (g : Nat → Nat) (n : Nat) (hn : 1 ≤ n)
    (hg : ∀ k, g k ≤ 255) :
    (∀ g2 : Nat → Nat, (∀ k, k < 3 * (n - 1) → g k = g2 k) →
      buildColors g n = buildColors g2 n) ∧
    (buildColors g n).length = n ∧
    (buildColors g n).getD 0 [] = [0, 0, 0] ∧
    (∀ i, i + 1 < n → (buildColors g n).getD (i + 1) []
      = [g (3 * i), g (3 * i + 1), g (3 * i + 2), 255]) ∧
    (∀ col ∈ buildColors g n, ∀ v ∈ col, v ≤ 255) := by
  refine ⟨?_, ?_, rfl, ?_, ?_⟩
  · intro g2 hagree
    unfold buildColors
    refine congrArg _ (buildColorsAux_congr g g2 (n - 1) 0 fun j hj => ?_)
    have e : (0 : Nat) + j = j := by omega
    rw [e]
    exact hagree j (by omega)
  · simp only [buildColors, List.length_cons, buildColorsAux_length]
    omega
  · intro i hi
    have hrec := buildColorsAux_getD g (n - 1) 0 i (by omega)
    simp only [Nat.zero_add] at hrec
    simpa only [buildColors, List.getD_cons_succ] using hrec
  · intro col hcol v hv
    simp only [buildColors, List.mem_cons] at hcol
    rcases hcol with rfl | hcol
    · simp only [List.mem_cons, List.not_mem_nil, or_false] at hv
      rcases hv with rfl | rfl | rfl <;> omega
    · exact buildColorsAux_mem_bound g hg (n - 1) 0 col hcol v hv

/-- Witness for C7 at n = 3 with the stream k ↦ k % 256: head and third
entry of the built color map. -/
theorem claim_C7_colormap_witness :
    (buildColors (fun k => k % 256) 3).getD 0 [] = [0, 0, 0] ∧
    (buildColors (fun k => k % 256) 3).getD 2 []
      = [3 % 256, 4 % 256, 5 % 256, 255] :=
  ⟨(claim_C7_colormap (fun k => k % 256) 3 (by decide)
      (fun k => Nat.lt_succ_iff.mp (Nat.mod_lt k (by decide)))).2.2.1,
   (claim_C7_colormap (fun k => k % 256) 3 (by decide)
      (fun k => Nat.lt_succ_iff.mp (Nat.mod_lt k (by decide)))).2.2.2.1 1
      (by decide)⟩

/-- Claim C9 (counterexample): with 5 classes the per-class vertical
stride is min(100, 1000/5) = 100, but the filled rectangle drawn for a
class spans from i·100+10 down to (i+1)·100 — its height is 90, not
min(100, 1000/num_classes) as the claim states. -/
theorem claim_C9_legend_counterexample :
    rectBottom 5 0 - rectTop 5 0 ≠ rectHeight 5 ∧
    rectHeight 5 = min 100 (1000 / 5) ∧ (legendRects 5).length = 5 := by
  decide

/-- Claim C9 (amended): the legend is a 1000×1000 raster with exactly one
filled rectangle per class; the vertical stride allotted per class is
min(100, 1000/num_classes) in integer pixels and the rectangle drawn in
slot i is inset, spanning i·h+10 to (i+1)·h (drawn height h − 10); the
bottom of the last rectangle never exceeds 1000; for num_classes ≤ 1000
the rectangles are stacked top-to-bottom in class-index order. -/
theorem claim_C9_legend_amended (n : Nat) (hn : 1 ≤ n) :
    (legendRects n).length = n ∧
    legendShape = [1000, 1000, 3] ∧
    rectHeight n = min 100 (1000 / n) ∧
    (∀ i, i < n → rectTop n i = i * rectHeight n + 10 ∧
      rectBottom n i = (i + 1) * rectHeight n ∧
      rectBottom n i - rectTop n i = rectHeight n - 10) ∧
    rectBottom n (n - 1) ≤ 1000 ∧
    (n ≤ 1000 → ∀ i j, i < j → j < n → rectTop n i < rectTop n j) := by
  refine ⟨by simp [legendRects], rfl, rfl, ?_, ?_, ?_⟩
  · intro i _
    refine ⟨by simp [rectTop], by simp [rectBottom], ?_⟩
    have e : (i + 1) * rectHeight n = i * rectHeight n + rectHeight n := by
      ring
    simp only [rectTop, rectBottom, e]
    omega
  · have h1 : rectHeight n ≤ 1000 / n := min_le_right _ _
    have h2 : n * (1000 / n) ≤ 1000 := by
      calc n * (1000 / n) = 1000 / n * n := by ring
        _ ≤ 1000 := Nat.div_mul_le_self 1000 n
    have e : rectBottom n (n - 1) = n * rectHeight n := by
      unfold rectBottom
      have en : n - 1 + 1 = n := by omega
      rw [en]
      omega
    rw [e]
    calc n * rectHeight n ≤ n * (1000 / n) :=
          Nat.mul_le_mul (le_refl n) h1
      _ ≤ 1000 := h2
  · intro hcap i j hij hjn
    have hpos : 1 ≤ rectHeight n := by
      unfold rectHeight
      have : 1 ≤ 1000 / n := (Nat.one_le_div_iff (by omega)).mpr (by omega)
      omega
    have hmul : (i + 1) * rectHeight n ≤ j * rectHeight n :=
      Nat.mul_le_mul (by omega) (le_refl (rectHeight n))
    have e : (i + 1) * rectHeight n = i * rectHeight n + rectHeight n := by
      ring
    simp only [rectTop]
    omega

/-- Witness for the amended C9 at 12 classes. -/
theorem claim_C9_legend_witness :
    (legendRects 12).length = 12 ∧ rectBottom 12 11 ≤ 1000 :=
  ⟨(claim_C9_legend_amended 12 (by decide)).1,
   (claim_C9_legend_amended 12 (by decide)).2.2.2.2.1⟩

theorem loadCfgStep_model (cf : Option Cfg) (s : PState) :
    (loadCfgStep cf s).model = s.model := by
  unfold loadCfgStep; split <;> rfl

theorem loadCfgStep_update (cf : Option Cfg) (s : PState) :
    (loadCfgStep cf s).update = s.update := by
  unfold loadCfgStep; split <;> rfl

theorem loadCfgStep_nextId (cf : Option Cfg) (s : PState) :
    (loadCfgStep cf s).nextId = s.nextId := by
  unfold loadCfgStep; split <;> rfl

theorem loadCfgStep_skip (cf : Option Cfg) (s : PState) (c1 : Cfg)
    (hc : s.cfg = some c1) (hu : s.update = false) :
    loadCfgStep cf s = s := by
  unfold loadCfgStep
  rw [if_neg]
  rintro ⟨h1 | h1, -⟩
  · simp [hc] at h1
  · simp [hu] at h1

theorem loadCfgStep_load (cf : Option Cfg) (s : PState)
    (hu : s.update = true) (hcf : cf ≠ none) :
    loadCfgStep cf s = { s with cfg := cf } := by
  unfold loadCfgStep
  rw [if_pos ⟨Or.inr hu, hcf⟩]

theorem buildStep_skip (inp : RunInput) (s : PState)
    (hm : s.model ≠ none) (hu : s.update = false) :
    buildStep inp s = (s, none) := by
  unfold buildStep
  split
  · rfl
  · rw [if_neg]
    rintro (h1 | h1)
    · exact hm h1
    · simp [hu] at h1

theorem buildStep_update_fst (inp : RunInput) (s : PState) :
    (buildStep inp s).1.update = s.update := by
  unfold buildStep
  split
  · rfl
  · split
    · split
      · split <;> rfl
      · rfl
    · rfl

theorem buildStep_build (inp : RunInput) (s : PState) (c : Cfg)
    (hc : s.cfg = some c) (hcond : s.model = none ∨ s.update = true) :
    buildStep inp s =
      if inp.modelFileExists = true then
        if inp.weightsCompatible = true then
          ({ s with model := some ⟨c, true, true, s.nextId⟩,
                    nextId := s.nextId + 1 }, none)
        else
          ({ s with model := some ⟨c, false, false, s.nextId⟩,
                    nextId := s.nextId + 1 }, some RunErr.weightLoad)
      else
        ({ s with model := some ⟨c, false, true, s.nextId⟩,
                  nextId := s.nextId + 1 }, none) := by
  unfold buildStep
  split
  · rename_i hnone
    rw [hc] at hnone
    cases hnone
  · rename_i c2 hc2
    rw [hc] at hc2
    injection hc2 with hcc
    subst hcc
    rw [if_pos hcond]

theorem inferStep_model (inp : RunInput) (s : PState) :
    (inferStep inp s).model = s.model := by
  unfold inferStep
  split
  · split <;> rfl
  · rfl

theorem inferStep_guard_false (inp : RunInput) (s : PState)
    (h : ¬(s.model ≠ none ∧ inp.srcImage ≠ none)) :
    inferStep inp s = s := by
  unfold inferStep
  rw [if_neg h]

theorem run_cases (inp : RunInput) (s : PState) :
    (∃ s2 e, buildStep inp (loadCfgStep inp.configFile s) = (s2, some e) ∧
      run inp s = (s2, some e)) ∨
    (∃ s2, buildStep inp (loadCfgStep inp.configFile s) = (s2, none) ∧
      run inp s = (inferStep inp s2, none)) := by
  cases hbs : buildStep inp (loadCfgStep inp.configFile s) with
  | mk s2 eo =>
    cases eo with
    | none =>
      right
      exact ⟨s2, rfl, by unfold run; rw [hbs]⟩
    | some e =>
      left
      exact ⟨s2, e, rfl, by unfold run; rw [hbs]⟩

theorem buildStep_fst_update_eq (inp : RunInput) (s s2 : PState)
    (eo : Option RunErr)
    (hbs : buildStep inp (loadCfgStep inp.configFile s) = (s2, eo)) :
    s2.update = s.update := by
  have h := congrArg (fun p : PState × Option RunErr => p.1.update) hbs
  simp only at h
  rw [← h, buildStep_update_fst, loadCfgStep_update]

/-- Claim C2 (counterexample): with a cached handle built from `cfgA`,
`update` false, and a config file now denoting `cfgB ≠ cfgA`, the ensure
step returns the same cached handle and constructs nothing — a differing
supplied configuration alone does NOT force a new handle, refuting the
claim as stated. -/
theorem claim_C2_cache_counterexample :
    (ensure inpB stateA).1.model = some modelA ∧
    modelA.cfgUsed ≠ cfgB ∧
    (ensure inpB stateA).1.nextId = stateA.nextId ∧
    (ensure inpB stateA).1.cfg = some cfgA := by
  decide

/-- Claim C2 (amended): two consecutive ensure calls with
`force_rebuild = false` and identical config file and weight path return
the same cached handle with no new construction; `force_rebuild = true`
with a loaded configuration always constructs a new handle; but a
supplied configuration differing from the bound one, with
`force_rebuild = false` and a cached handle present, triggers neither a
reload nor a rebuild — the state is returned unchanged. -/
theorem claim_C2_cache_amended :
    (∀ (inp : RunInput) (s : PState) (m : ModelH),
      s.update = false → (ensure inp s).1.model = some m →
      (ensure inp (ensure inp s).1).1.model = some m ∧
      (ensure inp (ensure inp s).1).1.nextId = (ensure inp s).1.nextId) ∧
    (∀ (inp : RunInput) (s : PState) (c : Cfg),
      s.update = true → (loadCfgStep inp.configFile s).cfg = some c →
      (ensure inp s).1.nextId = s.nextId + 1 ∧
      ∃ m : ModelH, (ensure inp s).1.model = some m ∧
        m.buildId = s.nextId ∧ m.cfgUsed = c) ∧
    (∀ (inp : RunInput) (s : PState) (c1 c2 : Cfg) (m : ModelH),
      s.update = false → s.cfg = some c1 → s.model = some m →
      inp.configFile = some c2 → (ensure inp s).1 = s) := by
  refine ⟨?_, ?_, ?_⟩
  · intro inp s m hu hm1
    have htu : (ensure inp s).1.update = false := by
      show (buildStep inp (loadCfgStep inp.configFile s)).1.update = false
      rw [buildStep_update_fst, loadCfgStep_update]
      exact hu
    have hlm : (loadCfgStep inp.configFile (ensure inp s).1).model
        = some m := by
      rw [loadCfgStep_model]; exact hm1
    have hlu : (loadCfgStep inp.configFile (ensure inp s).1).update
        = false := by
      rw [loadCfgStep_update]; exact htu
    have hskip : buildStep inp (loadCfgStep inp.configFile (ensure inp s).1)
        = (loadCfgStep inp.configFile (ensure inp s).1, none) :=
      buildStep_skip _ _ (by rw [hlm]; simp) hlu
    constructor
    · show (buildStep inp
        (loadCfgStep inp.configFile (ensure inp s).1)).1.model = some m
      rw [hskip]
      exact hlm
    · show (buildStep inp
          (loadCfgStep inp.configFile (ensure inp s).1)).1.nextId
        = (ensure inp s).1.nextId
      rw [hskip]
      exact loadCfgStep_nextId _ _
  · intro inp s c hu hc
    have hcond : (loadCfgStep inp.configFile s).model = none ∨
        (loadCfgStep inp.configFile s).update = true :=
      Or.inr (by rw [loadCfgStep_update]; exact hu)
    have hb := buildStep_build inp (loadCfgStep inp.configFile s) c hc hcond
    have hnid := loadCfgStep_nextId inp.configFile s
    constructor
    · show (buildStep inp (loadCfgStep inp.configFile s)).1.nextId
        = s.nextId + 1
      rw [hb]
      split
      · split <;> simp [hnid]
      · simp [hnid]
    · show ∃ m2 : ModelH,
        (buildStep inp (loadCfgStep inp.configFile s)).1.model = some m2 ∧
          m2.buildId = s.nextId ∧ m2.cfgUsed = c
      rw [hb]
      split
      · split
        · exact ⟨⟨c, true, true, (loadCfgStep inp.configFile s).nextId⟩,
            rfl, hnid, rfl⟩
        · exact ⟨⟨c, false, false, (loadCfgStep inp.configFile s).nextId⟩,
            rfl, hnid, rfl⟩
      · exact ⟨⟨c, false, true, (loadCfgStep inp.configFile s).nextId⟩,
          rfl, hnid, rfl⟩
  · intro inp s c1 c2 m hu hc hm hcf
    have hl : loadCfgStep inp.configFile s = s :=
      loadCfgStep_skip _ _ c1 hc hu
    show (buildStep inp (loadCfgStep inp.configFile s)).1 = s
    rw [hl, buildStep_skip inp s (by rw [hm]; simp) hu]

/-- Witness for the amended C2: a second no-rebuild call keeps the handle,
and a forced rebuild bumps the construction counter. -/
theorem claim_C2_cache_amended_witness :
    ((ensure inpNoImg (ensure inpNoImg stateA).1).1.model = some modelA ∧
      (ensure inpNoImg (ensure inpNoImg stateA).1).1.nextId
        = (ensure inpNoImg stateA).1.nextId) ∧
    (ensure inpBad stateU).1.nextId = stateU.nextId + 1 :=
  ⟨claim_C2_cache_amended.1 inpNoImg stateA modelA rfl (by decide),
   (claim_C2_cache_amended.2.1 inpBad stateU cfgA rfl (by decide)).1⟩

/-- Claim C3 (counterexample): starting from a cache holding a valid
weight-loaded handle, a forced rebuild with an existing but incompatible
weight file raises during weight loading and leaves the FRESH, weightless
model cached — the previous valid cache entry is gone, refuting the
claim that a failed build leaves the cache unchanged. -/
theorem claim_C3_failed_load_counterexample :
    (ensure inpBad stateU).2 = some RunErr.weightLoad ∧
    (ensure inpBad stateU).1.model ≠ stateU.model ∧
    (ensure inpBad stateU).1.model
      = some ⟨cfgA, false, false, stateU.nextId⟩ := by
  decide

/-- Claim C3 (amended): when the weight file exists but is structurally
incompatible, the ensure step raises `WeightLoadError` and the cache is
left holding the newly constructed model with weights not loaded and
eval mode not set — the new instance replaces any previous handle as
soon as construction succeeds, before weight loading is attempted. -/
theorem claim_C3_failed_load_amended (inp : RunInput) (s : PState) (c : Cfg)
    (hu : s.update = true)
    (hc : (loadCfgStep inp.configFile s).cfg = some c)
    (hex : inp.modelFileExists = true)
    (hw : inp.weightsCompatible = false) :
    (ensure inp s).2 = some RunErr.weightLoad ∧
    (ensure inp s).1.model = some ⟨c, false, false, s.nextId⟩ := by
  have hcond : (loadCfgStep inp.configFile s).model = none ∨
      (loadCfgStep inp.configFile s).update = true :=
    Or.inr (by rw [loadCfgStep_update]; exact hu)
  have hb := buildStep_build inp (loadCfgStep inp.configFile s) c hc hcond
  have hnid := loadCfgStep_nextId inp.configFile s
  constructor
  · show (buildStep inp (loadCfgStep inp.configFile s)).2
      = some RunErr.weightLoad
    rw [hb]
    simp [hex, hw]
  · show (buildStep inp (loadCfgStep inp.configFile s)).1.model
      = some ⟨c, false, false, s.nextId⟩
    rw [hb]
    simp [hex, hw, hnid]

/-- Witness for the amended C3 at a concrete state with no previous
model. -/
theorem claim_C3_failed_load_witness :
    (ensure inpBadImg stateE).2 = some RunErr.weightLoad ∧
    (ensure inpBadImg stateE).1.model = some ⟨cfgA, false, false, 0⟩ :=
  claim_C3_failed_load_amended inpBadImg stateE cfgA rfl (by decide) rfl rfl

/-- Claim C10: `param.update` is cleared to false only on a run in which
(after the build section) a model exists and a source image is present
and no exception was raised; whenever update is requested but the model
could not be built or no image is available, the flag stays true; and on
a subsequent run with a config file, a source image and a loadable (or
absent) weight file, the configuration, model and color map are all
rebuilt and the flag is finally cleared. -/
theorem claim_C10_update_flag :
    (∀ (inp : RunInput) (s : PState),
      s.update = true → (run inp s).1.update = false →
      (run inp s).1.model ≠ none ∧ inp.srcImage ≠ none ∧
        (run inp s).2 = none) ∧
    (∀ (inp : RunInput) (s : PState),
      s.update = true →
      ((run inp s).1.model = none ∨ inp.srcImage = none) →
      (run inp s).1.update = true) ∧
    (∀ (inp : RunInput) (s : PState) (c : Cfg) (hw : Nat × Nat),
      s.update = true → inp.configFile = some c →
      inp.srcImage = some hw → inp.modelFileExists = false →
      (run inp s).1.cfg = some c ∧
      (run inp s).1.model = some ⟨c, false, true, s.nextId⟩ ∧
      (run inp s).1.colors
        = some (buildColors inp.rand c.class_names.length) ∧
      (run inp s).1.update = false ∧ (run inp s).2 = none) := by
  refine ⟨?_, ?_, ?_⟩
  · intro inp s hu hcl
    rcases run_cases inp s with ⟨s2, e, hbs, hr⟩ | ⟨s2, hbs, hr⟩
    · exfalso
      rw [hr] at hcl
      have hcl2 : s2.update = false := hcl
      rw [buildStep_fst_update_eq inp s s2 _ hbs, hu] at hcl2
      cases hcl2
    · by_cases hg : (s2.model ≠ none ∧ inp.srcImage ≠ none)
      · refine ⟨?_, hg.2, by rw [hr]⟩
        rw [hr]
        show (inferStep inp s2).model ≠ none
        rw [inferStep_model]
        exact hg.1
      · exfalso
        rw [hr] at hcl
        have hcl2 : (inferStep inp s2).update = false := hcl
        rw [inferStep_guard_false inp s2 hg,
          buildStep_fst_update_eq inp s s2 _ hbs, hu] at hcl2
        cases hcl2
  · intro inp s hu hd
    rcases run_cases inp s with ⟨s2, e, hbs, hr⟩ | ⟨s2, hbs, hr⟩
    · rw [hr]
      show s2.update = true
      rw [buildStep_fst_update_eq inp s s2 _ hbs]
      exact hu
    · rw [hr] at hd ⊢
      have hd2 : (inferStep inp s2).model = none ∨ inp.srcImage = none :=
        hd
      rw [inferStep_model] at hd2
      have hg : ¬(s2.model ≠ none ∧ inp.srcImage ≠ none) := by
        rcases hd2 with h | h
        · intro hx; exact hx.1 h
        · intro hx; exact hx.2 h
      show (inferStep inp s2).update = true
      rw [inferStep_guard_false inp s2 hg,
        buildStep_fst_update_eq inp s s2 _ hbs]
      exact hu
  · intro inp s c hw hu hcf him hmf
    have hl : loadCfgStep inp.configFile s = { s with cfg := some c } := by
      rw [loadCfgStep_load inp.configFile s hu (by rw [hcf]; simp), hcf]
    have hcond : (loadCfgStep inp.configFile s).model = none ∨
        (loadCfgStep inp.configFile s).update = true :=
      Or.inr (by rw [loadCfgStep_update]; exact hu)
    have hc1 : (loadCfgStep inp.configFile s).cfg = some c := by
      rw [hl]
    have hb := buildStep_build inp (loadCfgStep inp.configFile s) c hc1
      hcond
    rw [if_neg (by simp [hmf]), hl] at hb
    have hrun : run inp s =
        (inferStep inp
          { s with
              cfg := some c,
              model := some ⟨c, false, true, s.nextId⟩,
              nextId := s.nextId + 1 },
          none) := by
      unfold run
      rw [hl, hb]
    rw [hrun]
    simp [inferStep, classCount, him, hu]

/-- Witness for C10: three concrete runs — one that clears the flag with
model and image present, one that keeps it set for lack of an image, and
one full rebuild of configuration, model and color map. -/
theorem claim_C10_update_flag_witness :
    ((run inpFull stateZ).1.model ≠ none ∧ inpFull.srcImage ≠ none ∧
      (run inpFull stateZ).2 = none) ∧
    (run inpNoImg stateZ).1.update = true ∧
    ((run inpFull stateZ).1.cfg = some cfgA ∧
      (run inpFull stateZ).1.model = some ⟨cfgA, false, true, 0⟩ ∧
      (run inpFull stateZ).1.colors
        = some (buildColors inpFull.rand cfgA.class_names.length) ∧
      (run inpFull stateZ).1.update = false ∧
      (run inpFull stateZ).2 = none) :=
  ⟨claim_C10_update_flag.1 inpFull stateZ rfl (by decide),
   claim_C10_update_flag.2.1 inpNoImg stateZ rfl (Or.inr rfl),
   claim_C10_update_flag.2.2 inpFull stateZ cfgA (3, 4) rfl rfl rfl rfl⟩
